import Mathlib

/-!
Verification of the vertical-cursor layout and curve-generation engine of
the abcjs renderer (src/write/abc_renderer.js and the appended
abc_ending_element.js).  The JavaScript is shallowly embedded: numbers are
modelled as rationals, JavaScript values that may be NaN (failed text
measurements, results of a division by zero) are modelled as Option of
rational with none standing for a non-finite value, and side effects on the
canvas are modelled as explicit event lists or state passing.
-/

set_option linter.unusedVariables false
set_option maxRecDepth 8000

namespace Abc

/-! ## Pitch mapping -/

/-- Embeds Renderer.prototype.calcY: `this.y - ofs*spacing.STEP`.
The constant spacing.STEP lives in abc_spacing.js which is not among the
sources; per the specification it is "a fixed pixel-per-staff-step
constant", so it is threaded through as the parameter STEP. -/
def calcY (y STEP ofs : ℚ) : ℚ := y - ofs * STEP

/-- Embeds Renderer.prototype.moveY: `this.y += em*numLines` (numLines
defaults to 1 at call sites that omit it). -/
def moveY (y em n : ℚ) : ℚ := y + em * n

/-! ## Padding resolution (Renderer.prototype.setPadding) -/

/-- The four optional per-document formatting margins read by setPadding. -/
structure Formatting4 where
  topmargin : Option ℚ
  botmargin : Option ℚ
  leftmargin : Option ℚ
  rightmargin : Option ℚ
deriving DecidableEq

/-- The renderer-level padding override set by setPaddingOverride. -/
structure OverridePadding where
  top : Option ℚ
  bottom : Option ℚ
  left : Option ℚ
  right : Option ℚ
deriving DecidableEq

/-- A fully resolved padding. -/
structure PaddingR where
  top : ℚ
  bottom : ℚ
  left : ℚ
  right : ℚ
deriving DecidableEq

/-- Embeds the inner helper setPaddingVariable of setPadding: tune
formatting value if defined, else renderer override if defined, else the
print or screen default. -/
def setPaddingVariable (formattingVal overrideVal : Option ℚ) (isPrint : Bool)
    (printDefault screenDefault : ℚ) : ℚ :=
  match formattingVal with
  | some v => v
  | none =>
    match overrideVal with
    | some v => v
    | none => if isPrint then printDefault else screenDefault

/-- Embeds Renderer.prototype.setPadding: resolves the four margins with
the defaults 38/15 (top, bottom) and 68/15 (left, right). -/
def setPadding (formatting : Formatting4) (paddingOverride : OverridePadding)
    (isPrint : Bool) : PaddingR :=
  ⟨setPaddingVariable formatting.topmargin paddingOverride.top isPrint 38 15,
   setPaddingVariable formatting.botmargin paddingOverride.bottom isPrint 38 15,
   setPaddingVariable formatting.leftmargin paddingOverride.left isPrint 68 15,
   setPaddingVariable formatting.rightmargin paddingOverride.right isPrint 68 15⟩

/-! ## Text measurement and outputTextIf -/

/-- A measured text size as returned by the canvas.  A component is none
when the JavaScript value would be NaN (measurement failure). -/
structure TSize where
  width : Option ℚ
  height : Option ℚ
deriving DecidableEq

/-- The parts of the renderer context that text layout reads: the canvas
measurement primitive, indexed by font key and text, and the box flag of
each font descriptor (abctune.formatting[type].box). -/
structure Ctx where
  measure : String → String → TSize
  box : String → Bool

/-- Embeds Renderer.prototype.getTextSize: measure the text with the
resolved font attributes and, when the font descriptor has the box style,
inflate both dimensions by 8. -/
def getTextSize (c : Ctx) (text kind : String) : TSize :=
  let size := c.measure kind text
  if c.box kind then ⟨size.width.map (· + 8), size.height.map (· + 8)⟩ else size

/-- The number of newline-separated lines of a string: JavaScript
str.split("\n").length, which for the one-character separator equals the
number of newline characters plus one. -/
def numLines (s : String) : ℕ := s.toList.count '\n' + 1

/-- Embeds Renderer.prototype.outputTextIf acting on the vertical cursor.
Returns the [width, height] pair the source returns, the y at which the
text was drawn (none when nothing was drawn), and the final cursor.  The
source guards the marginTop move with JavaScript truthiness (so marginTop
0 moves nothing) and skips the marginBottom move when the measured height
is NaN. -/
def outputTextIf (c : Ctx) (y : ℚ) (str kind : String) (marginTop : ℚ)
    (marginBottom : Option ℚ) : (ℚ × ℚ) × Option ℚ × ℚ :=
  if str = "" then ((0, 0), none, y)
  else
    let y1 := if marginTop = 0 then y else moveY y marginTop 1
    let bb := getTextSize c str kind
    let w0 := bb.width.getD 0
    let h0 := bb.height.getD 0
    let w := if c.box kind then w0 + 8 else w0
    let h := if c.box kind then h0 + 8 else h0
    let n : ℚ := (numLines str : ℚ)
    let y2 :=
      match marginBottom with
      | none => y1
      | some mb => if bb.height.isSome then moveY y1 (h / n) (n + mb) else y1
    ((w, h), some y1, y2)

/-! ## Grouped path accumulation (beginGroup / addPath / endGroup) -/

/-- One path command as handled by addPath: an opcode string (for example
"M", "m", "L", "z") followed by its numeric arguments. -/
structure Cmd where
  op : String
  args : List ℚ
deriving DecidableEq

instance : Inhabited Cmd := ⟨⟨"", []⟩⟩

/-- The grouping state of the renderer: the pending compound path, the
cumulative moveto origin lastM, and the ingroup flag. -/
structure GroupState where
  path : List Cmd
  lastM : ℚ × ℚ
  ingroup : Bool
deriving DecidableEq

/-- Embeds Renderer.prototype.beginGroup. -/
def beginGroup (s : GroupState) : GroupState := ⟨[], (0, 0), true⟩

/-- The in-place adjustment addPath performs on the leading command:
`path[0][1] -= lastM[0]; path[0][2] -= lastM[1]`.  Every fragment this
module feeds to addPath carries both coordinates; on shorter argument
lists the JavaScript would produce NaN entries, a case no caller creates,
and the list is returned unchanged here. -/
def adjustHead (args : List ℚ) (mx my : ℚ) : List ℚ :=
  match args with
  | x :: yv :: rest => (x - mx) :: (yv - my) :: rest
  | other => other

/-- The contribution of one command to the cumulative moveto origin:
addPath adds `(path[i][1], path[i][2])` for commands whose opcode is
"m" and nothing for the rest. -/
def mContrib (c : Cmd) : ℚ × ℚ :=
  if c.op = "m" then (c.args.getD 0 0, c.args.getD 1 0) else (0, 0)

/-- The total moveto displacement of a command list. -/
def mDisp (cs : List Cmd) : ℚ × ℚ := (cs.map mContrib).sum

/-- Embeds Renderer.prototype.addPath: an empty fragment is a no-op;
otherwise the leading command is rewritten to a relative "m" anchored at
lastM, lastM is advanced by that head and by every further "m" command of
the fragment, and all commands are appended to the pending path. -/
def addPath (s : GroupState) (frag : List Cmd) : GroupState :=
  match frag with
  | [] => s
  | c0 :: rest =>
    let head : Cmd := ⟨"m", adjustHead c0.args s.lastM.1 s.lastM.2⟩
    let afterHead : ℚ × ℚ :=
      (s.lastM.1 + head.args.getD 0 0, s.lastM.2 + head.args.getD 1 0)
    let newLast :=
      rest.foldl (fun a c => (a.1 + (mContrib c).1, a.2 + (mContrib c).2)) afterHead
    ⟨s.path ++ head :: rest, newLast, s.ingroup⟩

/-- Embeds Renderer.prototype.endGroup: clear the ingroup flag; when the
pending path is empty return null and emit nothing, otherwise emit the
accumulated commands as one compound path and clear the accumulator. -/
def endGroup (s : GroupState) : Option (List Cmd) × GroupState :=
  let s1 : GroupState := ⟨s.path, s.lastM, false⟩
  if s1.path = [] then (none, s1)
  else (some s1.path, ⟨[], s1.lastM, false⟩)

/-- The shape a fragment has after addPath has rewritten its head against
the cumulative origin at which it was appended. -/
def normalizeFrag (origin : ℚ × ℚ) (frag : List Cmd) : List Cmd :=
  match frag with
  | [] => []
  | c0 :: rest => ⟨"m", adjustHead c0.args origin.1 origin.2⟩ :: rest

/-- The absolute anchor a fragment ends at when drawn on its own: the
absolute coordinates of its leading command plus the relative movetos of
the remaining commands. -/
def fragNet (frag : List Cmd) : ℚ × ℚ :=
  match frag with
  | [] => (0, 0)
  | c0 :: rest =>
    rest.foldl (fun a c => (a.1 + (mContrib c).1, a.2 + (mContrib c).2))
      (c0.args.getD 0 0, c0.args.getD 1 0)

/-! ## Glyph kerning and printSymbol -/

/-- Embeds the module-level function kernSymbols. -/
def kernSymbols (lastSymbol thisSymbol : String) (lastSymbolWidth : ℚ) : ℚ :=
  let width := lastSymbolWidth
  let width := if lastSymbol = "f" ∧ thisSymbol = "f" then width * 2 / 3 else width
  let width := if lastSymbol = "p" ∧ thisSymbol = "p" then width * 5 / 6 else width
  let width := if lastSymbol = "f" ∧ thisSymbol = "z" then width * 5 / 8 else width
  width

/-- The GlyphTable collaborator (the abc_glyphs module, external to this
core): hasSymbol tells whether glyphs.printSymbol finds geometry and
returns an element; getPathForSymbol returns the raw path fragment, the
empty list when the glyph is missing. -/
structure GlyphTable where
  hasSymbol : String → Bool
  getYCorr : String → ℚ
  getSymbolWidth : String → ℚ
  getPathForSymbol : ℚ → ℚ → String → List Cmd

/-- The canvas-visible events printSymbol can produce. -/
inductive REvent where
  | openGroup : REvent
  | closeGroup : REvent
  | glyphEl (x y : ℚ) (s : String) : REvent
  | debugText (x : ℚ) (msg : String) : REvent
deriving DecidableEq

/-- The per-character loop of the multi-character branch of printSymbol:
place each character glyph, advancing dx by kernSymbols between
consecutive characters; a character without glyph geometry produces the
"no symbol:" debug text instead and does not advance dx. -/
def multiLoop (g : GlyphTable) (y STEP x offset : ℚ) (symbol : String) :
    List Char → ℚ → List REvent
  | [], _ => []
  | ch :: rest, dx =>
    let s := String.singleton ch
    let ycorr := g.getYCorr s
    if g.hasSymbol s then
      REvent.glyphEl (x + dx) (calcY y STEP (offset + ycorr)) s ::
        multiLoop g y STEP x offset symbol rest
          (match rest with
           | [] => dx
           | ch2 :: _ => dx + kernSymbols s (String.singleton ch2) (g.getSymbolWidth s))
    else
      REvent.debugText x ("no symbol:" ++ symbol) ::
        multiLoop g y STEP x offset symbol rest dx

/-- Embeds Renderer.prototype.printSymbol: a falsy symbol returns
immediately; a multi-character symbol without "." is laid out character by
character inside a canvas group; otherwise a single glyph is either added
to the current path group (ingroup) or placed directly, with the
"no symbol:" debug text when the glyph table has no geometry. -/
def printSymbol (g : GlyphTable) (y STEP : ℚ) (gs : GroupState) (x offset : ℚ)
    (symbol : String) : List REvent × GroupState :=
  if symbol = "" then ([], gs)
  else if 1 < symbol.length ∧ ¬ symbol.toList.contains '.' then
    (REvent.openGroup :: multiLoop g y STEP x offset symbol symbol.toList 0 ++
      [REvent.closeGroup], gs)
  else
    let ycorr := g.getYCorr symbol
    if gs.ingroup then
      ([], addPath gs (g.getPathForSymbol x (calcY y STEP (offset + ycorr)) symbol))
    else if g.hasSymbol symbol then
      ([REvent.glyphEl x (calcY y STEP (offset + ycorr)) symbol], gs)
    else
      ([REvent.debugText x ("no symbol:" ++ symbol)], gs)

/-! ## Slur and tie geometry (Renderer.prototype.drawArc)

The inputs of drawArc are ordinary finite numbers; the only operation in
it that can turn finite operands into a non-finite result is the division
by norm.  A JavaScript number is therefore modelled as Option of rational:
some q is the finite value q, none stands for any non-finite value (NaN or
an infinity), and the arithmetic below propagates none. -/

/-- JavaScript addition on possibly non-finite values. -/
def jadd : Option ℚ → Option ℚ → Option ℚ
  | some a, some b => some (a + b)
  | _, _ => none

/-- JavaScript subtraction on possibly non-finite values. -/
def jsub : Option ℚ → Option ℚ → Option ℚ
  | some a, some b => some (a - b)
  | _, _ => none

/-- JavaScript multiplication on possibly non-finite values (a product
with a non-finite factor is NaN or an infinity, never finite). -/
def jmul : Option ℚ → Option ℚ → Option ℚ
  | some a, some b => some (a * b)
  | _, _ => none

/-- JavaScript division restricted to the finite inputs this module
produces: a division by zero yields NaN or an infinity, modelled none. -/
def jdiv : Option ℚ → Option ℚ → Option ℚ
  | some a, some b => if b = 0 then none else some (a / b)
  | _, _ => none

/-- The geometry drawArc computes before building its path string. -/
structure ArcData where
  x1 : ℚ
  x2 : ℚ
  y1 : ℚ
  y2 : ℚ
  flatten : ℚ
  curve : ℚ
  ux : Option ℚ
  uy : Option ℚ
  controlx1 : Option ℚ
  controly1 : Option ℚ
  controlx2 : Option ℚ
  controly2 : Option ℚ
deriving DecidableEq

/-- Embeds Renderer.prototype.drawArc up to the numbers fed into its path
string.  The source computes `norm = Math.sqrt(dx*dx+dy*dy)`; square roots
are not rational, so the value of that expression is supplied as the
parameter norm and the theorems constrain it by 0 ≤ norm and
norm^2 = dx^2 + dy^2. -/
def drawArc (y STEP x1 x2 pitch1 pitch2 : ℚ) (above isTie : Bool)
    (norm : ℚ) : ArcData :=
  let spacing : ℚ := if isTie then 1.2 else 1.5
  let x1 := x1 + 6
  let x2 := x2 + 4
  let pitch1 := pitch1 + (if above then spacing else -spacing)
  let pitch2 := pitch2 + (if above then spacing else -spacing)
  let y1 := calcY y STEP pitch1
  let y2 := calcY y STEP pitch2
  let dx := x2 - x1
  let dy := y2 - y1
  let ux := jdiv (some dx) (some norm)
  let uy := jdiv (some dy) (some norm)
  let flatten := norm / 3.5
  let maxFlatten : ℚ := if isTie then 10 else 25
  let curve := (if above then (-1 : ℚ) else 1) * min maxFlatten (max 4 flatten)
  let controlx1 := jadd (some x1) (jsub (jmul (some flatten) ux) (jmul (some curve) uy))
  let controly1 := jadd (some y1) (jadd (jmul (some flatten) uy) (jmul (some curve) ux))
  let controlx2 := jsub (jsub (some x2) (jmul (some flatten) ux)) (jmul (some curve) uy)
  let controly2 := jadd (jsub (some y2) (jmul (some flatten) uy)) (jmul (some curve) ux)
  ⟨x1, x2, y1, y2, flatten, curve, ux, uy, controlx1, controly1, controlx2, controly2⟩

/-- The fourteen numbers drawArc feeds to sprintf for its path string, in
source order.  The path is emitted unconditionally. -/
def drawArcPath (d : ArcData) : List (Option ℚ) :=
  let thickness : ℚ := 2
  [some d.x1, some d.y1,
   d.controlx1, d.controly1, d.controlx2, d.controly2,
   some d.x2, some d.y2,
   jsub d.controlx2 (jmul (some thickness) d.uy),
   jadd d.controly2 (jmul (some thickness) d.ux),
   jsub d.controlx1 (jmul (some thickness) d.uy),
   jadd d.controly1 (jmul (some thickness) d.ux),
   some d.x1, some d.y1]

/-! ## Ending elements (abc_ending_element.js) -/

/-- An EndingElem: anchors carry (x, w); only x of anchor2 is read.
pitch starts undefined and is set by setUpperAndLowerElements. -/
structure EndingElem where
  text : String
  anchor1 : Option (ℚ × ℚ)
  anchor2 : Option (ℚ × ℚ)
  endingHeightAbove : ℚ
  pitch : Option ℚ
deriving DecidableEq

/-- Embeds the EndingElem constructor: endingHeightAbove is 5 and pitch
is undefined until placement is resolved. -/
def mkEndingElem (text : String) (a1 a2 : Option (ℚ × ℚ)) : EndingElem :=
  ⟨text, a1, a2, 5, none⟩

/-- Embeds EndingElem.prototype.setUpperAndLowerElements:
`this.pitch = positionY.endingHeightAbove - 2`. -/
def EndingElem.setUpperAndLowerElements (e : EndingElem)
    (positionYEndingHeightAbove : ℚ) : EndingElem :=
  { e with pitch := some (positionYEndingHeightAbove - 2) }

/-- The observable effects of EndingElem.prototype.draw: the console.error
diagnostic, the emitted path (whose coordinates are non-finite when pitch
is undefined), and the ending text. -/
inductive EndEv where
  | consoleError (msg : String) : EndEv
  | pathEmit (coords : List (Option ℚ)) : EndEv
  | textEmit (x : ℚ) (yv : Option ℚ) (t : String) : EndEv
deriving DecidableEq

/-- Embeds EndingElem.prototype.draw: log a console error when pitch was
never set (calcY of undefined is NaN, modelled by mapping over the
optional pitch), then emit the bracket path and, when anchor1 exists, the
ending text. -/
def EndingElem.draw (e : EndingElem) (ry STEP linestartx lineendx : ℚ) :
    List EndEv :=
  let err :=
    if e.pitch = none then [EndEv.consoleError "Ending Element y-coordinate not set."]
    else []
  let y : Option ℚ := e.pitch.map (fun p => calcY ry STEP p)
  let height : ℚ := 20
  let lsx := match e.anchor1 with
    | some a => a.1 + a.2
    | none => linestartx
  let lex := match e.anchor2 with
    | some a => a.1
    | none => lineendx
  let seg1 := match e.anchor1 with
    | some _ => [some lsx, y, some lsx, y.map (· + height)]
    | none => []
  let seg2 := match e.anchor2 with
    | some _ => [some lex, y, some lex, y.map (· + height)]
    | none => []
  let txt := match e.anchor1 with
    | some _ => [EndEv.textEmit (lsx + 5) (e.pitch.map fun p => calcY ry STEP (p - 0.5)) e.text]
    | none => []
  err ++ [EndEv.pathEmit (seg1 ++ seg2 ++ [some lsx, y, some lex, y])] ++ txt

/-! ## engraveTopText as a sequence of cursor movements -/

/-- One mutation of the vertical cursor y, tagged with whether it belongs
to the bracketed temporary rise used for the print header.  The amount is
an optional rational with none standing for a non-finite (NaN) amount:
the print header applies the measured header height to y with no isNaN
guard, so a failed measurement poisons the cursor. -/
structure Move where
  rise : Bool
  delta : Option ℚ
deriving DecidableEq

/-- The metaText fields engraveTopText reads.  String fields use "" for an
absent value, matching JavaScript truthiness of strings; header presence
is a flag since only its existence gates the temporary rise. -/
structure MetaT where
  header : Bool
  title : String
  subtitle : String
  rhythm : String
  origin : String
  composer : String
  author : String
  partOrder : String
deriving DecidableEq

/-- The spacing constants engraveTopText reads. -/
structure TopSpacing where
  top : ℚ
  title : ℚ
  subtitle : ℚ
  composer : ℚ
deriving DecidableEq

/-- The net cursor movement of one outputTextIf call; outputTextIf moves
the cursor by the same amount from every starting y. -/
def otDelta (c : Ctx) (str kind : String) (marginTop : ℚ)
    (marginBottom : Option ℚ) : ℚ :=
  (outputTextIf c 0 str kind marginTop marginBottom).2.2

/-- Embeds Renderer.prototype.engraveTopText as the ordered list of
vertical-cursor mutations it performs.  The print-header block first
lowers y by the measured header height and raises it back afterwards
(the bracketed temporary rise); the source applies that height with no
isNaN guard, so the two rise deltas are the optional measured height
itself (none when the measurement is NaN) and its negation.  The three
header outputTextIf calls pass marginTop 0 and marginBottom null and
move nothing.  The rhythm and composer outputTextIf calls also pass
marginTop 0 and marginBottom null; their returned heights (already
NaN-guarded inside outputTextIf, hence finite) feed the explicit moveY
calls of the block, which ends with the fixed moveY(-6) alignment
adjustment. -/
def engraveTopTextMoves (c : Ctx) (isPrint : Bool) (mt : MetaT)
    (sp : TopSpacing) : List Move :=
  (if mt.header ∧ isPrint then
    let headerTextHeight := (getTextSize c "XXXX" "headerfont").height
    [⟨true, headerTextHeight.map (fun q => -q)⟩, ⟨true, headerTextHeight⟩]
   else []) ++
  (if isPrint then [⟨false, some sp.top⟩] else []) ++
  (if mt.title ≠ "" then
    [⟨false, some (otDelta c mt.title "titlefont" sp.title (some 0))⟩] else []) ++
  (if mt.subtitle ≠ "" then
    [⟨false, some (otDelta c mt.subtitle "subtitlefont" sp.subtitle (some 0))⟩] else []) ++
  (if mt.rhythm ≠ "" ∨ mt.origin ≠ "" ∨ mt.composer ≠ "" then
    let composerLine :=
      mt.composer ++ (if mt.origin ≠ "" then " (" ++ mt.origin ++ ")" else "")
    let rSpaceHeight := (outputTextIf c 0 mt.rhythm "infofont" 0 none).1.2
    let spaceHeight := (outputTextIf c 0 composerLine "composerfont" 0 none).1.2
    ⟨false, some sp.composer⟩ ::
      (if composerLine ≠ "" then [⟨false, some spaceHeight⟩]
       else [⟨false, some rSpaceHeight⟩]) ++
      [⟨false, some (-6)⟩]
   else []) ++
  (if mt.author ≠ "" then
    [⟨false, some (otDelta c mt.author "composerfont" 0 (some 0))⟩] else []) ++
  (if mt.partOrder ≠ "" then
    [⟨false, some (otDelta c mt.partOrder "partsfont" 0 (some 0))⟩] else [])

/-! ## Concrete example data used by counterexamples and witnesses -/

/-- A context whose canvas measures every text as 10 by 10, no box fonts. -/
def exCtx : Ctx := ⟨fun _ _ => ⟨some 10, some 10⟩, fun _ => false⟩

/-- A context whose canvas measures every text as 10 wide and 12 high. -/
def exCtx2 : Ctx := ⟨fun _ _ => ⟨some 10, some 12⟩, fun _ => false⟩

/-- Like exCtx2 but every font descriptor carries the box style. -/
def exCtxBox : Ctx := ⟨fun _ _ => ⟨some 10, some 12⟩, fun _ => true⟩

/-- A tune whose metaText has only a rhythm entry. -/
def exMetaRhythm : MetaT := ⟨false, "", "", "R", "", "", "", ""⟩

/-- Simple nonnegative spacing values. -/
def exSpacing : TopSpacing := ⟨30, 8, 4, 8⟩

/-- A glyph table with no geometry at all (every glyph is missing). -/
def exGlyphNone : GlyphTable := ⟨fun _ => false, fun _ => 0, fun _ => 0, fun _ _ _ => []⟩

/-- A glyph table that knows every glyph, with width 7 and y-correction 0. -/
def exGlyphAll : GlyphTable := ⟨fun _ => true, fun _ => 0, fun _ => 7, fun _ _ _ => []⟩

/-- An idle group state. -/
def exGroupIdle : GroupState := ⟨[], (0, 0), false⟩

/-- A group state inside a group with an empty accumulator. -/
def exGroupIn : GroupState := ⟨[], (0, 0), true⟩

/-- A two-command absolute path fragment. -/
def exFrag1 : List Cmd := [⟨"M", [3, 4]⟩, ⟨"L", [5, 6]⟩]

/-- A second absolute path fragment. -/
def exFrag2 : List Cmd := [⟨"M", [10, 1]⟩, ⟨"z", []⟩]

/-! ## Helper lemmas -/

theorem numLines_pos (s : String) : 0 < ((numLines s : ℕ) : ℚ) := by
  have h : 0 < numLines s := Nat.succ_pos _
  exact_mod_cast h

theorem outputTextIf_height_nonneg (c : Ctx) (y : ℚ) (str kind : String)
    (mT : ℚ) (mb : Option ℚ)
    (hm : ∀ q, (c.measure kind str).height = some q → 0 ≤ q) :
    0 ≤ (outputTextIf c y str kind mT mb).1.2 := by
  unfold outputTextIf getTextSize
  by_cases hs : str = ""
  · simp [hs]
  · rcases hh : (c.measure kind str).height with _ | q
    · by_cases hb : c.box kind <;> simp [hs, hb, hh]
    · have hq := hm q hh
      by_cases hb : c.box kind <;> simp [hs, hb, hh] <;> linarith

theorem otDelta_nonneg (c : Ctx) (str kind : String) (mT : ℚ) (hmT : 0 ≤ mT)
    (hm : ∀ q, (c.measure kind str).height = some q → 0 ≤ q) :
    0 ≤ otDelta c str kind mT (some 0) := by
  unfold otDelta outputTextIf getTextSize moveY
  by_cases hs : str = ""
  · simp [hs]
  · have hn : ((numLines str : ℕ) : ℚ) ≠ 0 := ne_of_gt (numLines_pos str)
    rcases hh : (c.measure kind str).height with _ | q
    · by_cases hb : c.box kind <;> by_cases h0 : mT = 0 <;>
        simp [hs, hb, hh, h0] <;> linarith
    · have hq := hm q hh
      by_cases hb : c.box kind <;> by_cases h0 : mT = 0 <;>
        simp [hs, hb, hh, h0, add_zero, div_mul_cancel₀ _ hn] <;> linarith

/-! ## Claim C1: padding resolution -/

/-- Claim C1, counterexample: with document override top 50, renderer
override bottom 20 and print mode off, setPadding resolves bottom to 20
(the renderer-level override), not to the screen default 15 asserted by
the claim, so the claimed resolution (50, 15, 15, 15) is wrong. -/
theorem setPadding_claim_counterexample :
    (setPadding ⟨some 50, none, none, none⟩ ⟨none, some 20, none, none⟩ false).bottom = 20 ∧
    ¬ (setPadding ⟨some 50, none, none, none⟩ ⟨none, some 20, none, none⟩ false =
        ⟨50, 15, 15, 15⟩) := by
  decide

/-- Claim C1 (amended): setPadding resolves each of the four margins
independently with precedence per-document override, then renderer-level
override, then the print or screen default (38/15 for top and bottom,
68/15 for left and right); in particular document override top 50 with
renderer override bottom 20 in screen mode resolves to
(top 50, bottom 20, left 15, right 15). -/
theorem setPadding_precedence (f : Formatting4) (ov : OverridePadding) (p : Bool) :
    (∀ v, f.topmargin = some v → (setPadding f ov p).top = v) ∧
    (f.topmargin = none → ∀ v, ov.top = some v → (setPadding f ov p).top = v) ∧
    (f.topmargin = none → ov.top = none →
      (setPadding f ov p).top = if p then 38 else 15) ∧
    (∀ v, f.botmargin = some v → (setPadding f ov p).bottom = v) ∧
    (f.botmargin = none → ∀ v, ov.bottom = some v → (setPadding f ov p).bottom = v) ∧
    (f.botmargin = none → ov.bottom = none →
      (setPadding f ov p).bottom = if p then 38 else 15) ∧
    (∀ v, f.leftmargin = some v → (setPadding f ov p).left = v) ∧
    (f.leftmargin = none → ∀ v, ov.left = some v → (setPadding f ov p).left = v) ∧
    (f.leftmargin = none → ov.left = none →
      (setPadding f ov p).left = if p then 68 else 15) ∧
    (∀ v, f.rightmargin = some v → (setPadding f ov p).right = v) ∧
    (f.rightmargin = none → ∀ v, ov.right = some v → (setPadding f ov p).right = v) ∧
    (f.rightmargin = none → ov.right = none →
      (setPadding f ov p).right = if p then 68 else 15) ∧
    setPadding ⟨some 50, none, none, none⟩ ⟨none, some 20, none, none⟩ false =
      ⟨50, 20, 15, 15⟩ :=
  ⟨fun v hv => by simp [setPadding, setPaddingVariable, hv],
   fun h1 v hv => by simp [setPadding, setPaddingVariable, h1, hv],
   fun h1 h2 => by simp [setPadding, setPaddingVariable, h1, h2],
   fun v hv => by simp [setPadding, setPaddingVariable, hv],
   fun h1 v hv => by simp [setPadding, setPaddingVariable, h1, hv],
   fun h1 h2 => by simp [setPadding, setPaddingVariable, h1, h2],
   fun v hv => by simp [setPadding, setPaddingVariable, hv],
   fun h1 v hv => by simp [setPadding, setPaddingVariable, h1, hv],
   fun h1 h2 => by simp [setPadding, setPaddingVariable, h1, h2],
   fun v hv => by simp [setPadding, setPaddingVariable, hv],
   fun h1 v hv => by simp [setPadding, setPaddingVariable, h1, hv],
   fun h1 h2 => by simp [setPadding, setPaddingVariable, h1, h2],
   by decide⟩

/-- Claim C1 witness: the precedence theorem applied at the concrete
scenario of the claim, both for a margin with a document override and one
with only a renderer override. -/
theorem setPadding_precedence_witness :
    ((⟨some 50, none, none, none⟩ : Formatting4).topmargin = some 50 ∧
      (setPadding ⟨some 50, none, none, none⟩ ⟨none, some 20, none, none⟩ false).top = 50) ∧
    ((⟨some 50, none, none, none⟩ : Formatting4).botmargin = none ∧
      (⟨none, some 20, none, none⟩ : OverridePadding).bottom = some 20 ∧
      (setPadding ⟨some 50, none, none, none⟩ ⟨none, some 20, none, none⟩ false).bottom = 20) :=
  ⟨⟨rfl, (setPadding_precedence ⟨some 50, none, none, none⟩
      ⟨none, some 20, none, none⟩ false).1 50 rfl⟩,
   ⟨rfl, rfl, (setPadding_precedence ⟨some 50, none, none, none⟩
      ⟨none, some 20, none, none⟩ false).2.2.2.2.1 rfl 20 rfl⟩⟩

/-! ## Claim C8: ending element drawn before placement resolution -/

/-- Claim C8: drawing an EndingElem whose pitch was never resolved (as
built by the constructor) logs the console error diagnostic, and drawing
one after setUpperAndLowerElements resolved its placement never logs a
console error. -/
theorem endingElem_unset_pitch :
    (∀ t a1 a2 ry STEP lsx lex,
      EndEv.consoleError "Ending Element y-coordinate not set." ∈
        (mkEndingElem t a1 a2).draw ry STEP lsx lex) ∧
    (∀ (e : EndingElem) (py ry STEP lsx lex : ℚ) (msg : String),
      EndEv.consoleError msg ∉
        (e.setUpperAndLowerElements py).draw ry STEP lsx lex) := by
  constructor
  · intro t a1 a2 ry STEP lsx lex
    simp [EndingElem.draw, mkEndingElem]
  · intro e py ry STEP lsx lex msg
    simp [EndingElem.draw, EndingElem.setUpperAndLowerElements]
    rcases e.anchor1 with _ | a <;> rcases e.anchor2 with _ | b <;> simp

/-! ## Claim C4: outputTextIf cursor behaviour -/

/-- Claim C4: outputTextIf returns (0, 0) and leaves the cursor unchanged
on the empty string; on a non-empty string it draws at the cursor obtained
by first adding marginTop when that is truthy, leaves the cursor there
when marginBottom is null, and otherwise advances it by
(measuredHeight / lineCount) * (lineCount + marginBottom), the measured
height being the height component it returns and lineCount the number of
newline-separated lines. -/
theorem outputTextIf_cursor (c : Ctx) (y : ℚ) (str kind : String) (marginTop : ℚ)
    (marginBottom : Option ℚ) :
    (outputTextIf c y "" kind marginTop marginBottom = ((0, 0), none, y)) ∧
    (str ≠ "" →
      (outputTextIf c y str kind marginTop marginBottom).2.1 =
        some (if marginTop = 0 then y else y + marginTop) ∧
      (marginBottom = none →
        (outputTextIf c y str kind marginTop marginBottom).2.2 =
          if marginTop = 0 then y else y + marginTop) ∧
      (∀ mb, marginBottom = some mb → ((c.measure kind str).height).isSome →
        (outputTextIf c y str kind marginTop marginBottom).2.2 =
          (if marginTop = 0 then y else y + marginTop) +
            (outputTextIf c y str kind marginTop marginBottom).1.2 /
              (numLines str : ℚ) * ((numLines str : ℚ) + mb))) := by
  constructor
  · simp [outputTextIf]
  · intro hs
    refine ⟨?_, ?_, ?_⟩
    · unfold outputTextIf moveY
      simp [hs]
    · intro hmb
      subst hmb
      unfold outputTextIf moveY
      simp [hs]
    · intro mb hmb hsome
      subst hmb
      have hbb : ((getTextSize c str kind).height).isSome := by
        unfold getTextSize
        rcases hh : (c.measure kind str).height with _ | q
        · rw [hh] at hsome; simp at hsome
        · by_cases hb : c.box kind <;> simp [hb, hh]
      unfold outputTextIf moveY
      simp [hs, hbb, mul_one]

/-- Claim C4 witness: with a canvas measuring 10 by 12, the three-line
string with marginTop 5 and marginBottom 1 draws at cursor 5 and advances
the cursor to 5 + (12/3) * (3+1) = 21. -/
theorem outputTextIf_cursor_witness :
    ("a\nb\nc" ≠ "") ∧
    (((exCtx2.measure "k" "a\nb\nc").height).isSome) ∧
    (outputTextIf exCtx2 0 "a\nb\nc" "k" 5 (some 1)).2.1 =
      some (if (5 : ℚ) = 0 then 0 else 0 + 5) ∧
    (outputTextIf exCtx2 0 "a\nb\nc" "k" 5 (some 1)).2.2 =
      (if (5 : ℚ) = 0 then 0 else 0 + 5) +
        (outputTextIf exCtx2 0 "a\nb\nc" "k" 5 (some 1)).1.2 /
          (numLines "a\nb\nc" : ℚ) * ((numLines "a\nb\nc" : ℚ) + 1) := by
  refine ⟨by decide, by decide, ?_, ?_⟩
  · exact ((outputTextIf_cursor exCtx2 0 "a\nb\nc" "k" 5 (some 1)).2 (by decide)).1
  · exact ((outputTextIf_cursor exCtx2 0 "a\nb\nc" "k" 5 (some 1)).2 (by decide)).2.2
      1 rfl (by decide)

/-! ## Claim C9: box fonts inflate text sizes twice -/

/-- Claim C9: for a non-empty string drawn with a box-style font and a
finite canvas measurement, outputTextIf returns width and height that
exceed the canvas measurement by 16 (getTextSize adds 8 for the box
border and outputTextIf adds 8 more), and the cursor advance is computed
from the height inflated by 16. -/
theorem outputTextIf_box_sixteen (c : Ctx) (y : ℚ) (str kind : String)
    (marginTop : ℚ) (marginBottom : Option ℚ) (w h : ℚ)
    (hne : str ≠ "") (hbox : c.box kind = true)
    (hms : c.measure kind str = ⟨some w, some h⟩) :
    (outputTextIf c y str kind marginTop marginBottom).1 = (w + 16, h + 16) ∧
    (∀ mb, marginBottom = some mb →
      (outputTextIf c y str kind marginTop marginBottom).2.2 =
        (if marginTop = 0 then y else y + marginTop) +
          (h + 16) / (numLines str : ℚ) * ((numLines str : ℚ) + mb)) := by
  constructor
  · unfold outputTextIf getTextSize
    rw [hms]
    simp [hne, hbox]
    constructor <;> ring
  · intro mb hmb
    subst hmb
    unfold outputTextIf getTextSize moveY
    rw [hms]
    have h16 : (h + 8) + 8 = h + 16 := by ring
    simp [hne, hbox, h16, mul_one]

/-- Claim C9 witness: a 10 by 12 measurement under a box font comes back
from outputTextIf as 26 by 28, sixteen more than measured. -/
theorem outputTextIf_box_sixteen_witness :
    ("T" ≠ "") ∧ (exCtxBox.box "k" = true) ∧
    (exCtxBox.measure "k" "T" = ⟨some 10, some 12⟩) ∧
    (outputTextIf exCtxBox 0 "T" "k" 0 none).1 = (10 + 16, 12 + 16) := by
  refine ⟨by decide, rfl, rfl, ?_⟩
  exact (outputTextIf_box_sixteen exCtxBox 0 "T" "k" 0 none 10 12
    (by decide) rfl rfl).1

/-! ## Claim C3: drawArc geometry -/

theorem drawArc_curve_eq (y STEP x1 x2 pitch1 pitch2 : ℚ) (above isTie : Bool)
    (norm : ℚ) :
    (drawArc y STEP x1 x2 pitch1 pitch2 above isTie norm).curve =
      (if above then (-1 : ℚ) else 1) *
        min (if isTie then (10 : ℚ) else 25) (max 4 (norm / 3.5)) := rfl

/-- Claim C3: drawArc insets its endpoints by 6 and 4, offsets each pitch
by 1.2 (tie) or 1.5 (slur) added when above and subtracted otherwise and
maps the result through calcY, sets flatten to norm / 3.5 for norm the
euclidean distance of the adjusted endpoints, and sets curve to plus or
minus min(maxFlatten, max(4, flatten)) with maxFlatten 10 for ties and 25
for slurs, negative exactly when above. -/
theorem drawArc_geometry (y STEP x1 x2 pitch1 pitch2 : ℚ) (above isTie : Bool)
    (norm : ℚ) (d : ArcData)
    (hd : d = drawArc y STEP x1 x2 pitch1 pitch2 above isTie norm)
    (hnorm : 0 ≤ norm)
    (hdist : norm ^ 2 = (d.x2 - d.x1) ^ 2 + (d.y2 - d.y1) ^ 2) :
    d.x1 = x1 + 6 ∧
    d.x2 = x2 + 4 ∧
    d.y1 = calcY y STEP (pitch1 + (if above then (if isTie then (1.2 : ℚ) else 1.5)
        else -(if isTie then (1.2 : ℚ) else 1.5))) ∧
    d.y2 = calcY y STEP (pitch2 + (if above then (if isTie then (1.2 : ℚ) else 1.5)
        else -(if isTie then (1.2 : ℚ) else 1.5))) ∧
    d.flatten = norm / 3.5 ∧
    |d.curve| = min (if isTie then (10 : ℚ) else 25) (max 4 (norm / 3.5)) ∧
    (d.curve < 0 ↔ above = true) := by
  subst hd
  have hpos : (0 : ℚ) <
      min (if isTie then (10 : ℚ) else 25) (max 4 (norm / 3.5)) := by
    refine lt_min ?_ (lt_of_lt_of_le (by norm_num) (le_max_left _ _))
    cases isTie <;> norm_num
  refine ⟨rfl, rfl, rfl, rfl, rfl, ?_, ?_⟩
  · rw [drawArc_curve_eq]
    cases above
    · rw [if_neg (by simp), one_mul, abs_of_pos hpos]
    · rw [if_pos rfl, neg_one_mul, abs_neg, abs_of_pos hpos]
  · rw [drawArc_curve_eq]
    cases above
    · rw [if_neg (by simp), one_mul]
      simp only [Bool.false_eq_true, iff_false, not_lt]
      exact le_of_lt hpos
    · rw [if_pos rfl, neg_one_mul]
      simp only [iff_true]
      exact neg_lt_zero.mpr hpos

/-- Claim C3 witness: the geometry theorem applied at a concrete tie with
adjusted endpoints (6, -44/5) and (9, -24/5) and euclidean distance 5:
flatten is 10/7 and curve is -4. -/
theorem drawArc_geometry_witness :
    ((⟨6, 9, -44/5, -24/5, 10/7, -4, some (3/5), some (4/5), some (352/35),
        some (-352/35), some (397/35), some (-292/35)⟩ : ArcData) =
      drawArc 0 4 0 5 1 0 true true 5) ∧
    ((0 : ℚ) ≤ 5) ∧
    ((5 : ℚ) ^ 2 = ((9 : ℚ) - 6) ^ 2 + ((-24/5 : ℚ) - (-44/5)) ^ 2) ∧
    ((-4 : ℚ) < 0) ∧
    |(-4 : ℚ)| = min (10 : ℚ) (max 4 ((5 : ℚ) / 3.5)) := by
  have hd : (⟨6, 9, -44/5, -24/5, 10/7, -4, some (3/5), some (4/5), some (352/35),
      some (-352/35), some (397/35), some (-292/35)⟩ : ArcData) =
      drawArc 0 4 0 5 1 0 true true 5 := by
    norm_num [drawArc, calcY, jdiv, jadd, jsub, jmul, ArcData.mk.injEq,
      min_def, max_def]
  have h := drawArc_geometry 0 4 0 5 1 0 true true 5 _ hd (by norm_num)
    (by norm_num)
  refine ⟨hd, by norm_num, by norm_num, ?_, ?_⟩
  · exact h.2.2.2.2.2.2.mpr rfl
  · exact h.2.2.2.2.2.1

/-! ## Claim C10: drawArc divides without a guard -/

/-- Claim C10: drawArc divides by the euclidean distance of its adjusted
endpoints without a guard: when the adjusted endpoints differ all four
control-point coordinates are finite, and when they coincide the division
by zero makes them non-finite, yet the degenerate path is still emitted
(the emitted path data contains the non-finite entries). -/
theorem drawArc_control_finiteness (y STEP x1 x2 pitch1 pitch2 : ℚ)
    (above isTie : Bool) (norm : ℚ) (d : ArcData)
    (hd : d = drawArc y STEP x1 x2 pitch1 pitch2 above isTie norm)
    (hnorm : 0 ≤ norm)
    (hdist : norm ^ 2 = (d.x2 - d.x1) ^ 2 + (d.y2 - d.y1) ^ 2) :
    (¬ (d.x2 - d.x1 = 0 ∧ d.y2 - d.y1 = 0) →
      d.controlx1.isSome ∧ d.controly1.isSome ∧
      d.controlx2.isSome ∧ d.controly2.isSome) ∧
    ((d.x2 - d.x1 = 0 ∧ d.y2 - d.y1 = 0) →
      d.controlx1 = none ∧ d.controly1 = none ∧
      d.controlx2 = none ∧ d.controly2 = none ∧
      none ∈ drawArcPath d) := by
  constructor
  · intro hne
    have hnz : norm ≠ 0 := by
      intro h0
      rw [h0] at hdist
      have hx : (d.x2 - d.x1) ^ 2 = 0 := by
        nlinarith [sq_nonneg (d.x2 - d.x1), sq_nonneg (d.y2 - d.y1)]
      have hy : (d.y2 - d.y1) ^ 2 = 0 := by
        nlinarith [sq_nonneg (d.x2 - d.x1), sq_nonneg (d.y2 - d.y1)]
      exact hne ⟨sq_eq_zero_iff.mp hx, sq_eq_zero_iff.mp hy⟩
    subst hd
    simp [drawArc, jdiv, jmul, jadd, jsub, hnz]
  · intro hz
    have h0 : norm = 0 := by
      have hsq : norm ^ 2 = 0 := by rw [hdist, hz.1, hz.2]; ring
      exact sq_eq_zero_iff.mp hsq
    subst hd
    subst h0
    have hc : (drawArc y STEP x1 x2 pitch1 pitch2 above isTie 0).controlx1 = none ∧
        (drawArc y STEP x1 x2 pitch1 pitch2 above isTie 0).controly1 = none ∧
        (drawArc y STEP x1 x2 pitch1 pitch2 above isTie 0).controlx2 = none ∧
        (drawArc y STEP x1 x2 pitch1 pitch2 above isTie 0).controly2 = none := by
      refine ⟨?_, ?_, ?_, ?_⟩ <;> simp [drawArc, jdiv, jmul, jadd, jsub]
    refine ⟨hc.1, hc.2.1, hc.2.2.1, hc.2.2.2, ?_⟩
    simp [drawArcPath, hc.1]

/-- Claim C10 witness: the finiteness theorem applied at the same concrete
tie, whose adjusted endpoints differ; all four control coordinates come
out finite. -/
theorem drawArc_control_finiteness_witness :
    ((⟨6, 9, -44/5, -24/5, 10/7, -4, some (3/5), some (4/5), some (352/35),
        some (-352/35), some (397/35), some (-292/35)⟩ : ArcData) =
      drawArc 0 4 0 5 1 0 true true 5) ∧
    (¬ (((9 : ℚ) - 6 = 0) ∧ ((-24/5 : ℚ) - (-44/5) = 0))) ∧
    ((some ((352 : ℚ)/35)).isSome ∧ (some ((-352 : ℚ)/35)).isSome ∧
      (some ((397 : ℚ)/35)).isSome ∧ (some ((-292 : ℚ)/35)).isSome) := by
  have hd : (⟨6, 9, -44/5, -24/5, 10/7, -4, some (3/5), some (4/5), some (352/35),
      some (-352/35), some (397/35), some (-292/35)⟩ : ArcData) =
      drawArc 0 4 0 5 1 0 true true 5 := by
    norm_num [drawArc, calcY, jdiv, jadd, jsub, jmul, ArcData.mk.injEq,
      min_def, max_def]
  refine ⟨hd, by norm_num, ?_⟩
  exact (drawArc_control_finiteness 0 4 0 5 1 0 true true 5 _ hd (by norm_num)
    (by norm_num)).1 (by norm_num)

/-! ## Claim C5: the path accumulator -/

theorem foldlAddPairs (init : ℚ × ℚ) (l : List Cmd) :
    l.foldl (fun a c => (a.1 + (mContrib c).1, a.2 + (mContrib c).2)) init =
      init + mDisp l := by
  induction l generalizing init with
  | nil => simp [mDisp]
  | cons c t ih =>
    simp only [List.foldl_cons, ih, mDisp, List.map_cons, List.sum_cons]
    ext <;> simp <;> ring

theorem addPath_lastM (s : GroupState) (c0 : Cmd) (rest : List Cmd)
    (hl : 2 ≤ c0.args.length) :
    (addPath s (c0 :: rest)).lastM =
      (c0.args.getD 0 0, c0.args.getD 1 0) + mDisp rest := by
  rcases c0 with ⟨op, args⟩
  rcases args with _ | ⟨a, _ | ⟨b, t⟩⟩
  · simp at hl
  · simp at hl
  · simp only [addPath, adjustHead, foldlAddPairs]
    congr 1
    ext <;> simp

theorem fragNet_cons (c0 : Cmd) (rest : List Cmd) :
    fragNet (c0 :: rest) = (c0.args.getD 0 0, c0.args.getD 1 0) + mDisp rest := by
  simp [fragNet, foldlAddPairs]

theorem addPath_path_eq (s : GroupState) (frag : List Cmd) :
    (addPath s frag).path = s.path ++ normalizeFrag s.lastM frag := by
  cases frag <;> simp [addPath, normalizeFrag]

theorem mDisp_normalizeFrag (origin : ℚ × ℚ) (c0 : Cmd) (rest : List Cmd)
    (hl : 2 ≤ c0.args.length) :
    mDisp (normalizeFrag origin (c0 :: rest)) =
      ((c0.args.getD 0 0, c0.args.getD 1 0) - origin) + mDisp rest := by
  rcases c0 with ⟨op, args⟩
  rcases args with _ | ⟨a, _ | ⟨b, t⟩⟩
  · simp at hl
  · simp at hl
  · simp only [normalizeFrag, adjustHead, mDisp, List.map_cons, List.sum_cons, mContrib]
    ext <;> simp

/-- Claim C5: beginGroup immediately followed by endGroup emits no
geometry; addPath of an empty fragment is a no-op; after appending two
fragments, endGroup emits exactly one compound path made of the two
fragments with their leading commands normalized to relative movetos
anchored at the cumulative origin, the cumulative origin after each
fragment equals that fragment's own absolute end anchor, and the total
moveto displacement of the compound path is the sum of the two fragments'
net displacements of the cumulative origin. -/
theorem pathGroup_compound (s : GroupState) (f1 f2 : List Cmd)
    (h1 : f1 ≠ []) (h2 : f2 ≠ [])
    (ha1 : 2 ≤ f1.headI.args.length) (ha2 : 2 ≤ f2.headI.args.length) :
    (endGroup (beginGroup s)).1 = none ∧
    (∀ t : GroupState, addPath t [] = t) ∧
    (endGroup (addPath (addPath (beginGroup s) f1) f2)).1 =
      some (normalizeFrag (0, 0) f1 ++
            normalizeFrag (addPath (beginGroup s) f1).lastM f2) ∧
    (addPath (beginGroup s) f1).lastM = fragNet f1 ∧
    (addPath (addPath (beginGroup s) f1) f2).lastM = fragNet f2 ∧
    mDisp (normalizeFrag (0, 0) f1 ++
           normalizeFrag (addPath (beginGroup s) f1).lastM f2) =
      ((addPath (beginGroup s) f1).lastM - (0, 0)) +
      ((addPath (addPath (beginGroup s) f1) f2).lastM -
        (addPath (beginGroup s) f1).lastM) := by
  rcases f1 with _ | ⟨c1, r1⟩
  · exact absurd rfl h1
  rcases f2 with _ | ⟨c2, r2⟩
  · exact absurd rfl h2
  simp only [List.headI] at ha1 ha2
  have hL1 : (addPath (beginGroup s) (c1 :: r1)).lastM =
      (c1.args.getD 0 0, c1.args.getD 1 0) + mDisp r1 := addPath_lastM _ _ _ ha1
  have hL2 : (addPath (addPath (beginGroup s) (c1 :: r1)) (c2 :: r2)).lastM =
      (c2.args.getD 0 0, c2.args.getD 1 0) + mDisp r2 := addPath_lastM _ _ _ ha2
  refine ⟨by simp [beginGroup, endGroup], fun t => rfl, ?_, ?_, ?_, ?_⟩
  · have hp : (addPath (addPath (beginGroup s) (c1 :: r1)) (c2 :: r2)).path =
        normalizeFrag (0, 0) (c1 :: r1) ++
          normalizeFrag (addPath (beginGroup s) (c1 :: r1)).lastM (c2 :: r2) := by
      rw [addPath_path_eq, addPath_path_eq]
      simp [beginGroup]
    unfold endGroup
    rw [hp]
    simp [normalizeFrag]
  · rw [hL1, fragNet_cons]
  · rw [hL2, fragNet_cons]
  · rw [mDisp, List.map_append, List.sum_append, ← mDisp, ← mDisp,
      mDisp_normalizeFrag _ _ _ ha1, mDisp_normalizeFrag _ _ _ ha2, hL1, hL2]
    abel

/-- Claim C5 witness: the compound-path theorem applied to the fragments
M 3 4, L 5 6 and M 10 1, z: one path is emitted, its second fragment
starts with the relative moveto m 7 -3, and the cumulative origin ends at
the second fragment's absolute anchor (10, 1). -/
theorem pathGroup_compound_witness :
    (exFrag1 ≠ [] ∧ exFrag2 ≠ [] ∧
      2 ≤ exFrag1.headI.args.length ∧ 2 ≤ exFrag2.headI.args.length) ∧
    ((endGroup (beginGroup exGroupIdle)).1 = none ∧
     (∀ t : GroupState, addPath t [] = t) ∧
     (endGroup (addPath (addPath (beginGroup exGroupIdle) exFrag1) exFrag2)).1 =
       some (normalizeFrag (0, 0) exFrag1 ++
             normalizeFrag (addPath (beginGroup exGroupIdle) exFrag1).lastM exFrag2) ∧
     (addPath (beginGroup exGroupIdle) exFrag1).lastM = fragNet exFrag1 ∧
     (addPath (addPath (beginGroup exGroupIdle) exFrag1) exFrag2).lastM = fragNet exFrag2 ∧
     mDisp (normalizeFrag (0, 0) exFrag1 ++
            normalizeFrag (addPath (beginGroup exGroupIdle) exFrag1).lastM exFrag2) =
       ((addPath (beginGroup exGroupIdle) exFrag1).lastM - (0, 0)) +
       ((addPath (addPath (beginGroup exGroupIdle) exFrag1) exFrag2).lastM -
         (addPath (beginGroup exGroupIdle) exFrag1).lastM)) := by
  refine ⟨⟨by decide, by decide, by decide, by decide⟩, ?_⟩
  exact pathGroup_compound exGroupIdle exFrag1 exFrag2
    (by decide) (by decide) (by decide) (by decide)

/-! ## Claim C6: missing glyphs and the debug marker -/

theorem multiLoop_debug_of_missing (g : GlyphTable) (y STEP x offset : ℚ)
    (symbol : String) (l : List Char) (dx : ℚ) (ch : Char)
    (hch : ch ∈ l) (hmiss : g.hasSymbol (String.singleton ch) = false) :
    REvent.debugText x ("no symbol:" ++ symbol) ∈
      multiLoop g y STEP x offset symbol l dx := by
  induction l generalizing dx with
  | nil => cases hch
  | cons a t ih =>
    rcases List.mem_cons.mp hch with rfl | hmem
    · simp only [multiLoop]
      rw [if_neg (by simp [hmiss])]
      exact List.mem_cons_self _ _
    · simp only [multiLoop]
      by_cases ha : g.hasSymbol (String.singleton a) = true
      · rw [if_pos ha]
        exact List.mem_cons_of_mem _ (ih _ hmem)
      · rw [if_neg ha]
        exact List.mem_cons_of_mem _ (ih _ hmem)

/-- Claim C6, counterexample: printSymbol does not render a diagnostic on
every branch.  For a single glyph requested while a group is open, a glyph
without geometry (getPathForSymbol empty, hasSymbol false) produces no
event at all and leaves the group state unchanged: the glyph is silently
skipped with no debug marker. -/
theorem printSymbol_missing_glyph_counterexample :
    exGlyphNone.hasSymbol "x" = false ∧
    exGroupIn.ingroup = true ∧
    (printSymbol exGlyphNone 0 1 exGroupIn 0 0 "x").1 = [] ∧
    (printSymbol exGlyphNone 0 1 exGroupIn 0 0 "x").2 = exGroupIn := by
  refine ⟨rfl, rfl, rfl, rfl⟩

/-- Claim C6 (amended): a missing glyph is replaced by the visible
"no symbol:" debug marker in the multi-character branch and in the
single-symbol branch outside a group, and rendering continues; but in the
single-symbol branch inside a group a missing glyph (empty path fragment)
is silently skipped: no event is emitted and the group state is
unchanged. -/
theorem printSymbol_missing_glyph (g : GlyphTable) (y STEP : ℚ) (gs : GroupState)
    (x offset : ℚ) (symbol : String) :
    (symbol ≠ "" → 1 < symbol.length ∧ ¬ symbol.toList.contains '.' →
      ∀ ch ∈ symbol.toList, g.hasSymbol (String.singleton ch) = false →
        REvent.debugText x ("no symbol:" ++ symbol) ∈
          (printSymbol g y STEP gs x offset symbol).1) ∧
    (symbol ≠ "" → ¬ (1 < symbol.length ∧ ¬ symbol.toList.contains '.') →
      gs.ingroup = false → g.hasSymbol symbol = false →
      (printSymbol g y STEP gs x offset symbol).1 =
        [REvent.debugText x ("no symbol:" ++ symbol)]) ∧
    (symbol ≠ "" → ¬ (1 < symbol.length ∧ ¬ symbol.toList.contains '.') →
      gs.ingroup = true →
      g.getPathForSymbol x (calcY y STEP (offset + g.getYCorr symbol)) symbol = [] →
      printSymbol g y STEP gs x offset symbol = ([], gs)) := by
  refine ⟨?_, ?_, ?_⟩
  · intro hne hmulti ch hch hmiss
    rw [printSymbol, if_neg hne, if_pos hmulti]
    exact List.mem_cons_of_mem _
      (List.mem_append_left _ (multiLoop_debug_of_missing g y STEP x offset
        symbol symbol.toList 0 ch hch hmiss))
  · intro hne hsingle hgroup hmiss
    rw [printSymbol, if_neg hne, if_neg hsingle]
    simp [hgroup, hmiss]
  · intro hne hsingle hgroup hempty
    rw [printSymbol, if_neg hne, if_neg hsingle]
    simp only [hgroup, if_true, hempty]
    simp [addPath]

/-- Claim C6 witness: the amended theorem applied to the two-character
symbol "qq" against an empty glyph table: the debug marker is rendered
inside the group events. -/
theorem printSymbol_missing_glyph_witness :
    ("qq" ≠ "" ∧ 1 < ("qq" : String).length ∧
      ¬ ("qq" : String).toList.contains '.' ∧
      'q' ∈ ("qq" : String).toList ∧
      exGlyphNone.hasSymbol (String.singleton 'q') = false) ∧
    REvent.debugText 0 ("no symbol:" ++ "qq") ∈
      (printSymbol exGlyphNone 0 1 exGroupIdle 0 0 "qq").1 := by
  refine ⟨⟨by decide, by decide, by decide, by decide, rfl⟩, ?_⟩
  exact (printSymbol_missing_glyph exGlyphNone 0 1 exGroupIdle 0 0 "qq").1
    (by decide) ⟨by decide, by decide⟩ 'q' (by decide) rfl

/-! ## Claim C7: kerning between consecutive glyphs -/

/-- Claim C7: in the multi-character layout the advance after a glyph is
kernSymbols(prev, next, width(prev)), which narrows to 2/3 width for the
pair f f, 5/6 for p p, 5/8 for f z, and is the full width for every other
pair; in particular in "ff" the second glyph sits at x plus 2/3 the width
of "f", and in "xy" at x plus the full width of "x". -/
theorem printSymbol_kerning (g : GlyphTable) (y STEP x offset w : ℚ)
    (gs : GroupState) :
    kernSymbols "f" "f" w = w * 2 / 3 ∧
    kernSymbols "p" "p" w = w * 5 / 6 ∧
    kernSymbols "f" "z" w = w * 5 / 8 ∧
    (∀ a b : String, ¬ (a = "f" ∧ b = "f") → ¬ (a = "p" ∧ b = "p") →
      ¬ (a = "f" ∧ b = "z") → kernSymbols a b w = w) ∧
    (∀ (symbol : String) (ch1 ch2 : Char) (rest : List Char) (dx : ℚ),
      g.hasSymbol (String.singleton ch1) = true →
      multiLoop g y STEP x offset symbol (ch1 :: ch2 :: rest) dx =
        REvent.glyphEl (x + dx)
            (calcY y STEP (offset + g.getYCorr (String.singleton ch1)))
            (String.singleton ch1) ::
          multiLoop g y STEP x offset symbol (ch2 :: rest)
            (dx + kernSymbols (String.singleton ch1) (String.singleton ch2)
              (g.getSymbolWidth (String.singleton ch1)))) ∧
    (g.hasSymbol "f" = true →
      (printSymbol g y STEP gs x offset "ff").1 =
        [REvent.openGroup,
         REvent.glyphEl x (calcY y STEP (offset + g.getYCorr "f")) "f",
         REvent.glyphEl (x + g.getSymbolWidth "f" * 2 / 3)
           (calcY y STEP (offset + g.getYCorr "f")) "f",
         REvent.closeGroup]) ∧
    (g.hasSymbol "x" = true → g.hasSymbol "y" = true →
      (printSymbol g y STEP gs x offset "xy").1 =
        [REvent.openGroup,
         REvent.glyphEl x (calcY y STEP (offset + g.getYCorr "x")) "x",
         REvent.glyphEl (x + g.getSymbolWidth "x")
           (calcY y STEP (offset + g.getYCorr "y")) "y",
         REvent.closeGroup]) := by
  have hstep : ∀ (symbol : String) (ch1 ch2 : Char) (rest : List Char) (dx : ℚ),
      g.hasSymbol (String.singleton ch1) = true →
      multiLoop g y STEP x offset symbol (ch1 :: ch2 :: rest) dx =
        REvent.glyphEl (x + dx)
            (calcY y STEP (offset + g.getYCorr (String.singleton ch1)))
            (String.singleton ch1) ::
          multiLoop g y STEP x offset symbol (ch2 :: rest)
            (dx + kernSymbols (String.singleton ch1) (String.singleton ch2)
              (g.getSymbolWidth (String.singleton ch1))) := by
    intro symbol ch1 ch2 rest dx h1
    simp only [multiLoop]
    rw [if_pos h1]
  have hf : String.singleton 'f' = "f" := rfl
  have hx : String.singleton 'x' = "x" := rfl
  have hy : String.singleton 'y' = "y" := rfl
  refine ⟨by simp [kernSymbols], by simp [kernSymbols], by simp [kernSymbols],
    ?_, hstep, ?_, ?_⟩
  · intro a b hab hpp hfz
    simp [kernSymbols, hab, hpp, hfz]
  · intro hhf
    have htl : ("ff" : String).toList = ['f', 'f'] := rfl
    rw [printSymbol, if_neg (by decide), if_pos (by decide), htl]
    rw [hstep "ff" 'f' 'f' [] 0 (by rw [hf]; exact hhf)]
    simp only [multiLoop]
    rw [if_pos (by rw [hf]; exact hhf)]
    simp [hf, kernSymbols]
  · intro hhx hhy
    have htl : ("xy" : String).toList = ['x', 'y'] := rfl
    rw [printSymbol, if_neg (by decide), if_pos (by decide), htl]
    rw [hstep "xy" 'x' 'y' [] 0 (by rw [hx]; exact hhx)]
    simp only [multiLoop]
    rw [if_pos (by rw [hy]; exact hhy)]
    simp [hx, hy, kernSymbols]

/-- Claim C7 witness: the kerning theorem applied with a glyph table of
width 7: in "ff" the second glyph sits at 14/3, in "xy" at 7. -/
theorem printSymbol_kerning_witness :
    (exGlyphAll.hasSymbol "f" = true ∧ exGlyphAll.hasSymbol "x" = true ∧
      exGlyphAll.hasSymbol "y" = true) ∧
    (printSymbol exGlyphAll 0 1 exGroupIdle 0 0 "ff").1 =
      [REvent.openGroup,
       REvent.glyphEl 0 (calcY 0 1 (0 + exGlyphAll.getYCorr "f")) "f",
       REvent.glyphEl (0 + exGlyphAll.getSymbolWidth "f" * 2 / 3)
         (calcY 0 1 (0 + exGlyphAll.getYCorr "f")) "f",
       REvent.closeGroup] ∧
    (printSymbol exGlyphAll 0 1 exGroupIdle 0 0 "xy").1 =
      [REvent.openGroup,
       REvent.glyphEl 0 (calcY 0 1 (0 + exGlyphAll.getYCorr "x")) "x",
       REvent.glyphEl (0 + exGlyphAll.getSymbolWidth "x")
         (calcY 0 1 (0 + exGlyphAll.getYCorr "y")) "y",
       REvent.closeGroup] := by
  refine ⟨⟨rfl, rfl, rfl⟩, ?_, ?_⟩
  · exact (printSymbol_kerning exGlyphAll 0 1 0 0 7 exGroupIdle).2.2.2.2.2.1 rfl
  · exact (printSymbol_kerning exGlyphAll 0 1 0 0 7 exGroupIdle).2.2.2.2.2.2 rfl rfl

/-! ## Claim C2: vertical cursor movements of engraveTopText -/

theorem foldr_jadd_riseFree (l : List Move)
    (h : ∀ m ∈ l, m.rise = false) :
    ((l.map fun m => if m.rise then m.delta else some 0).foldr jadd (some 0)) =
      some 0 := by
  induction l with
  | nil => rfl
  | cons a t ih =>
    simp only [List.map_cons, List.foldr_cons]
    rw [h a (List.mem_cons_self _ _)]
    rw [ih (fun m hm => h m (List.mem_cons_of_mem _ hm))]
    simp [jadd]

theorem engraveTopText_riseFree (c : Ctx) (isPrint : Bool) (mt : MetaT)
    (sp : TopSpacing) (hcond : ¬ (mt.header = true ∧ isPrint = true)) :
    ∀ m ∈ engraveTopTextMoves c isPrint mt sp, m.rise = false := by
  intro m hm
  simp only [engraveTopTextMoves, List.mem_append] at hm
  rcases hm with ((((((h | h) | h) | h) | h) | h) | h)
  · rw [if_neg hcond] at h
    cases h
  · split at h
    · simp only [List.mem_cons, List.not_mem_nil, or_false] at h
      subst h
      rfl
    · cases h
  · split at h
    · simp only [List.mem_cons, List.not_mem_nil, or_false] at h
      subst h
      rfl
    · cases h
  · split at h
    · simp only [List.mem_cons, List.not_mem_nil, or_false] at h
      subst h
      rfl
    · cases h
  · split at h
    · simp only [List.mem_cons, List.mem_append, List.not_mem_nil, or_false] at h
      rcases h with (h | h) | h
      · subst h
        rfl
      · split at h <;> split at h <;>
          simp only [List.mem_cons, List.not_mem_nil, or_false] at h <;>
          subst h <;> rfl
      · subst h
        rfl
    · cases h
  · split at h
    · simp only [List.mem_cons, List.not_mem_nil, or_false] at h
      subst h
      rfl
    · cases h
  · split at h
    · simp only [List.mem_cons, List.not_mem_nil, or_false] at h
      subst h
      rfl
    · cases h

theorem engraveTopTextMoves_header_decomp (c : Ctx) (isPrint : Bool)
    (mt : MetaT) (sp : TopSpacing) (hH : mt.header = true) (hP : isPrint = true) :
    engraveTopTextMoves c isPrint mt sp =
      [⟨true, ((getTextSize c "XXXX" "headerfont").height).map (fun q => -q)⟩,
       ⟨true, (getTextSize c "XXXX" "headerfont").height⟩] ++
      engraveTopTextMoves c isPrint { mt with header := false } sp := by
  simp only [engraveTopTextMoves, hH, hP]
  simp [List.append_assoc]

/-- Claim C2, counterexample: the title/composer/rhythm block of
engraveTopText does not only leave y unchanged or increase it: with a
rhythm entry present, the block ends with the unbracketed fixed moveY(-6)
alignment adjustment, a finite cursor decrease outside any temporary-rise
bracket. -/
theorem engraveTopText_monotone_counterexample :
    (⟨false, some (-6)⟩ : Move) ∈
      engraveTopTextMoves exCtx false exMetaRhythm exSpacing ∧
    ¬ (∀ m ∈ engraveTopTextMoves exCtx false exMetaRhythm exSpacing,
        m.rise = false → ∀ d, m.delta = some d → 0 ≤ d) := by
  have hm : engraveTopTextMoves exCtx false exMetaRhythm exSpacing =
      [⟨false, some 8⟩, ⟨false, some 10⟩, ⟨false, some (-6)⟩] := by
    rfl
  constructor
  · rw [hm]
    simp
  · rw [hm]
    intro h
    have h6 := h ⟨false, some (-6)⟩ (by simp) rfl (-6) rfl
    norm_num at h6

/-- Claim C2 (amended): during engraveTopText every cursor movement
outside the bracketed temporary rise of the print header is finite and
nonnegative (given nonnegative spacing constants and nonnegative measured
text heights) except the single fixed decrease by 6 that ends the
title/composer/rhythm block; the temporary-rise movements cancel exactly
and restore y whenever the header text measurement is finite, while a
NaN header measurement makes the rise contribution non-finite - the
source subtracts it from y with no isNaN guard, so y is poisoned and
never restored. -/
theorem engraveTopText_y_moves (c : Ctx) (isPrint : Bool) (mt : MetaT)
    (sp : TopSpacing)
    (htop : 0 ≤ sp.top) (htitle : 0 ≤ sp.title) (hsub : 0 ≤ sp.subtitle)
    (hcomp : 0 ≤ sp.composer)
    (hm : ∀ kind text q, (c.measure kind text).height = some q → 0 ≤ q) :
    (∀ m ∈ engraveTopTextMoves c isPrint mt sp,
        m.rise = false → ∃ d, m.delta = some d ∧ (0 ≤ d ∨ d = -6)) ∧
    (∀ hq, (getTextSize c "XXXX" "headerfont").height = some hq →
      (((engraveTopTextMoves c isPrint mt sp).map fun m =>
          if m.rise then m.delta else some 0).foldr jadd (some 0)) = some 0) ∧
    (mt.header = true → isPrint = true →
      (getTextSize c "XXXX" "headerfont").height = none →
      (((engraveTopTextMoves c isPrint mt sp).map fun m =>
          if m.rise then m.delta else some 0).foldr jadd (some 0)) = none) := by
  refine ⟨?_, ?_, ?_⟩
  · intro m hmem hrise
    simp only [engraveTopTextMoves, List.mem_append] at hmem
    rcases hmem with ((((((h | h) | h) | h) | h) | h) | h)
    · split at h
      · simp only [List.mem_cons, List.not_mem_nil, or_false] at h
        rcases h with h | h <;> rw [h] at hrise <;> cases hrise
      · cases h
    · split at h
      · simp only [List.mem_cons, List.not_mem_nil, or_false] at h
        subst h
        exact ⟨sp.top, rfl, Or.inl htop⟩
      · cases h
    · split at h
      · simp only [List.mem_cons, List.not_mem_nil, or_false] at h
        subst h
        exact ⟨_, rfl, Or.inl (otDelta_nonneg c mt.title "titlefont" sp.title htitle
          (fun q hq => hm _ _ q hq))⟩
      · cases h
    · split at h
      · simp only [List.mem_cons, List.not_mem_nil, or_false] at h
        subst h
        exact ⟨_, rfl, Or.inl (otDelta_nonneg c mt.subtitle "subtitlefont" sp.subtitle hsub
          (fun q hq => hm _ _ q hq))⟩
      · cases h
    · split at h
      · simp only [List.mem_cons, List.mem_append, List.not_mem_nil, or_false] at h
        rcases h with (h | h) | h
        · subst h
          exact ⟨sp.composer, rfl, Or.inl hcomp⟩
        · split at h <;> split at h <;>
            simp only [List.mem_cons, List.not_mem_nil, or_false] at h <;>
            subst h <;>
            exact ⟨_, rfl, Or.inl (outputTextIf_height_nonneg c 0 _ _ 0 none
              (fun q hq => hm _ _ q hq))⟩
        · subst h
          exact ⟨-6, rfl, Or.inr rfl⟩
      · cases h
    · split at h
      · simp only [List.mem_cons, List.not_mem_nil, or_false] at h
        subst h
        exact ⟨_, rfl, Or.inl (otDelta_nonneg c mt.author "composerfont" 0 le_rfl
          (fun q hq => hm _ _ q hq))⟩
      · cases h
    · split at h
      · simp only [List.mem_cons, List.not_mem_nil, or_false] at h
        subst h
        exact ⟨_, rfl, Or.inl (otDelta_nonneg c mt.partOrder "partsfont" 0 le_rfl
          (fun q hq => hm _ _ q hq))⟩
      · cases h
  · intro hq hfin
    by_cases hHP : mt.header = true ∧ isPrint = true
    · rw [engraveTopTextMoves_header_decomp c isPrint mt sp hHP.1 hHP.2,
        List.map_append, List.foldr_append,
        foldr_jadd_riseFree _ (engraveTopText_riseFree c isPrint _ sp (by simp))]
      rw [hfin]
      simp [jadd]
    · exact foldr_jadd_riseFree _ (engraveTopText_riseFree c isPrint mt sp hHP)
  · intro hH hP hnone
    rw [engraveTopTextMoves_header_decomp c isPrint mt sp hH hP,
      List.map_append, List.foldr_append,
      foldr_jadd_riseFree _ (engraveTopText_riseFree c isPrint _ sp (by simp))]
    rw [hnone]
    simp [jadd]

/-- Claim C2 witness: the amended theorem applied to the rhythm-only tune
with constant finite 10 by 10 measurements and the sample spacing table:
every non-rise move is finite and nonnegative or exactly -6, and the rise
contribution is zero. -/
theorem engraveTopText_y_moves_witness :
    ((0 : ℚ) ≤ exSpacing.top ∧ (0 : ℚ) ≤ exSpacing.title ∧
      (0 : ℚ) ≤ exSpacing.subtitle ∧ (0 : ℚ) ≤ exSpacing.composer) ∧
    ((getTextSize exCtx "XXXX" "headerfont").height = some 10) ∧
    (∀ m ∈ engraveTopTextMoves exCtx false exMetaRhythm exSpacing,
        m.rise = false → ∃ d, m.delta = some d ∧ (0 ≤ d ∨ d = -6)) ∧
    (((engraveTopTextMoves exCtx false exMetaRhythm exSpacing).map fun m =>
        if m.rise then m.delta else some 0).foldr jadd (some 0)) = some 0 := by
  have h := engraveTopText_y_moves exCtx false exMetaRhythm exSpacing
    (by norm_num [exSpacing]) (by norm_num [exSpacing]) (by norm_num [exSpacing])
    (by norm_num [exSpacing])
    (fun kind text q hq => by
      have hq10 : (10 : ℚ) = q := Option.some.inj hq
      rw [← hq10]
      norm_num)
  refine ⟨⟨by norm_num [exSpacing], by norm_num [exSpacing],
    by norm_num [exSpacing], by norm_num [exSpacing]⟩, rfl, h.1, h.2.1 10 rfl⟩

end Abc
